import Mathlib

/-!
Verification of the Open3D `HashmapBuffer` core
(`cpp/open3d/core/hashmap/HashmapBuffer.h`): a fixed-capacity slot pool
backing a hash table, consisting of key/value slot arrays, a LIFO free-list
heap, and a device-polymorphic heap-top counter.

The facade (constructor, metadata accessors, `GetValueBuffer`,
`GetHeapTopIndex`) is embedded directly from the header. The allocator
primitives `Allocate` / `Free` and the heap initialization are implemented in
the device backends, which are not part of the given source; those are
modelled from the specification text, as marked in their doc comments.
-/

namespace Open3D

/-- Execution device type tag (`Device::DeviceType`): host CPU or CUDA. -/
inductive DeviceType where
  | CPU
  | CUDA
  deriving DecidableEq, Repr

/-- Device (`core::Device`): just the type tag matters to the buffer. -/
structure Device where
  type : DeviceType
  deriving DecidableEq, Repr

/-- Element type descriptor (`core::Dtype`): the byte size returned by
`ByteSize()` and the dtype name; the buffer consults nothing else. -/
structure Dtype where
  byteSize : Int
  name : String
  deriving DecidableEq, Repr

/-- Datatype `core::UInt32` used for the heap tensor (4-byte unsigned). -/
def UInt32Dtype : Dtype := ⟨4, "UInt32"⟩

/-- Datatype `Dtype::Int32` used for the CUDA heap-top scalar (4-byte signed). -/
def Int32Dtype : Dtype := ⟨4, "Int32"⟩

/-- Object dtype `Dtype(DtypeCode::Object, byte_size, name)` for key/value
payload cells. -/
def objectDtype (byteSize : Int) (nm : String) : Dtype := ⟨byteSize, nm⟩

/-- Number of value bits of a dtype, from its byte size. -/
def Dtype.bitCount (d : Dtype) : Nat := 8 * d.byteSize.toNat

/-- Storage of an unsigned integer in a cell of dtype `d`: kept modulo the
cell width (C++ unsigned conversion). -/
def Dtype.storeNat (d : Dtype) (n : Nat) : Nat := n % 2 ^ d.bitCount

/-- Reading back the bit pattern `n` from a cell of dtype `d` as a signed
(two's-complement) integer. -/
def Dtype.loadInt (d : Dtype) (n : Nat) : Int :=
  let m := n % 2 ^ d.bitCount
  if m < 2 ^ (d.bitCount - 1) then (m : Int) else (m : Int) - 2 ^ d.bitCount

/-- The slice of `core::Tensor` the buffer depends on: element count
(`GetLength()`), dtype (`GetDtype()`), and device (`GetDevice()`).
Lengths are `int64_t` in the source, hence `Int` here. -/
structure Tensor where
  length : Int
  dtype : Dtype
  device : Device
  deriving DecidableEq, Repr

/-- The single-element `Int32` device tensor `Tensor({1}, Dtype::Int32, device)`
backing the CUDA heap top, together with the scalar it holds. -/
structure CudaScalar where
  dtype : Dtype
  device : Device
  value : Int
  deriving DecidableEq, Repr

/-- Embedding of `struct HeapTop`: a CUDA tensor (present only when constructed on a CUDA
device) and a host `std::atomic<int>` counter, member-initialized to 0. -/
structure HeapTop where
  cuda : Option CudaScalar
  cpu : Int
  deriving DecidableEq, Repr

/-- Embedding of `class HashmapBuffer`: the heap tensor, the heap-top structure, the key
buffer tensor and the value buffer tensors. -/
structure HashmapBuffer where
  heap : Tensor
  heap_top : HeapTop
  key_buffer : Tensor
  value_buffers : List Tensor
  deriving DecidableEq, Repr

/-- The `HashmapBuffer` constructor: builds the `UInt32` heap tensor, the key
buffer with object dtype of size `dsize_key`, one value buffer per entry of
`dsize_values` (each of object dtype of the listed size), all of length
`capacity` on `device`; on a CUDA device it additionally builds the
single-element `Int32` heap-top tensor (whose initial contents the source
leaves unspecified; the placeholder value 0 here is never relied upon). -/
def HashmapBuffer.construct (capacity : Int) (dsize_key : Int)
    (dsize_values : List Int) (device : Device) : HashmapBuffer :=
  { heap := ⟨capacity, UInt32Dtype, device⟩
    heap_top :=
      { cuda :=
          if device.type = DeviceType.CUDA then
            some ⟨Int32Dtype, device, 0⟩
          else
            none
        cpu := 0 }
    key_buffer := ⟨capacity, objectDtype dsize_key "_hash_k", device⟩
    value_buffers := dsize_values.enum.map fun p =>
      ⟨capacity, objectDtype p.2 ("_hash_v_" ++ toString p.1), device⟩ }

/-- Accessor `GetDevice()`: device of the heap tensor. -/
def HashmapBuffer.GetDevice (b : HashmapBuffer) : Device := b.heap.device

/-- Accessor `GetCapacity()`: length of the heap tensor. -/
def HashmapBuffer.GetCapacity (b : HashmapBuffer) : Int := b.heap.length

/-- Accessor `GetKeyDsize()`: byte size of the key buffer dtype. -/
def HashmapBuffer.GetKeyDsize (b : HashmapBuffer) : Int :=
  b.key_buffer.dtype.byteSize

/-- Accessor `GetValueDsizes()`: byte sizes of the value buffer dtypes, in order. -/
def HashmapBuffer.GetValueDsizes (b : HashmapBuffer) : List Int :=
  b.value_buffers.map fun t => t.dtype.byteSize

/-- Accessor `GetIndexHeap()`: the heap tensor. -/
def HashmapBuffer.GetIndexHeap (b : HashmapBuffer) : Tensor := b.heap

/-- Accessor `GetHeapTop()`: the heap-top structure. -/
def HashmapBuffer.GetHeapTop (b : HashmapBuffer) : HeapTop := b.heap_top

/-- Accessor `GetHeapTopIndex()`: if the heap tensor's device is CUDA, read the
single-element device scalar (`heap_top_.cuda[0].Item<int>()`, a
device-to-host transfer), else load the host counter (`heap_top_.cpu.load()`).
A `const` method: it is a pure observation of the state. `none` models the
CUDA read on a buffer whose CUDA tensor was never constructed. -/
def HashmapBuffer.GetHeapTopIndex (b : HashmapBuffer) : Option Int :=
  if b.heap.device.type = DeviceType.CUDA then
    b.heap_top.cuda.map CudaScalar.value
  else
    some b.heap_top.cpu

/-- Accessor `GetKeyBuffer()`: the key buffer tensor. -/
def HashmapBuffer.GetKeyBuffer (b : HashmapBuffer) : Tensor := b.key_buffer

/-- Accessor `GetValueBuffers()`: all value buffer tensors. -/
def HashmapBuffer.GetValueBuffers (b : HashmapBuffer) : List Tensor :=
  b.value_buffers

/-- Failure raised by `GetValueBuffer` via `utility::LogError` when the index
is out of bound; it carries the requested index and the valid count, which the
source interpolates into the message "Value buffer index out-of-bound". -/
inductive HashmapError where
  | OutOfRange (index : Nat) (count : Nat)
  deriving DecidableEq, Repr

/-- Accessor `GetValueBuffer(i)`: error when `i >= value_buffers_.size()`, naming `i`
and the size; otherwise return `value_buffers_[i]`. -/
def HashmapBuffer.GetValueBuffer (b : HashmapBuffer) (i : Nat) :
    Except HashmapError Tensor :=
  if h : b.value_buffers.length ≤ i then
    Except.error (HashmapError.OutOfRange i b.value_buffers.length)
  else
    Except.ok (b.value_buffers.get ⟨i, Nat.lt_of_not_le h⟩)

/-- Modelled from the spec: the allocator state manipulated by the backends
(which are not part of the given source). `heap` is the free-list array of
slot addresses ("an array of length capacity holding slot addresses") and
`heap_top` the counter ("a single non-negative integer, 0 <= value <=
capacity"); "the sub-range [0, heap_top) contains exactly the set of
addresses currently considered free". -/
structure AllocState where
  heap : List Nat
  heap_top : Nat
  deriving DecidableEq, Repr

/-- Allocation failure taxonomy from the spec: "PoolExhausted — Allocate
called with zero free addresses". -/
inductive AllocError where
  | PoolExhausted
  deriving DecidableEq, Repr

/-- The free region of the free-list array: `heap[0 .. heap_top)`. -/
def AllocState.freeList (s : AllocState) : List Nat := s.heap.take s.heap_top

/-- Modelled from the spec: "Allocate() → address | EXHAUSTED: if heap_top ==
0, fails with PoolExhausted. Otherwise, decrement heap_top by 1 and return
heap[heap_top] (post-decrement value)." The backend implementation is not in
the given source. -/
def Allocate (s : AllocState) : Except AllocError (Nat × AllocState) :=
  if s.heap_top = 0 then
    Except.error AllocError.PoolExhausted
  else
    Except.ok (s.heap.getD (s.heap_top - 1) 0, { s with heap_top := s.heap_top - 1 })

/-- Modelled from the spec: "Free(address): writes address into
heap[heap_top], then increments heap_top by 1." The backend implementation is
not in the given source. -/
def Free (s : AllocState) (a : Nat) : AllocState :=
  { heap := s.heap.set s.heap_top a, heap_top := s.heap_top + 1 }

/-- Modelled from the spec: the initial allocator state, "Initially heap[i] =
i for all i and heap_top = capacity (all slots free)"; the reset that
establishes this runs in the backends, not in the given source. -/
def AllocState.init (capacity : Nat) : AllocState :=
  { heap := List.range capacity, heap_top := capacity }

/-- Iterated allocation: perform `n` Allocate calls with no intervening Free,
collecting the returned addresses in call order; the first failure aborts. -/
def allocateN : Nat → AllocState → Except AllocError (List Nat × AllocState)
  | 0, s => Except.ok ([], s)
  | n + 1, s =>
    match Allocate s with
    | Except.error e => Except.error e
    | Except.ok (a, s') =>
      match allocateN n s' with
      | Except.error e => Except.error e
      | Except.ok (as, s'') => Except.ok (a :: as, s'')

/-- One caller-issued allocator operation. -/
inductive Op where
  | alloc
  | free (a : Nat)
  deriving DecidableEq, Repr

/-- One step of a caller-driven allocator run. The second component is the
multiset of currently outstanding (allocated, not yet freed) addresses. An
`alloc` op that hits exhaustion is over-allocation, and a `free` op whose
address is not outstanding is a double-free or foreign free; both are
rejected (`none`), so a succeeding run is exactly a sequence with no
double-free and no over-allocation. -/
def step : AllocState × Multiset Nat → Op → Option (AllocState × Multiset Nat)
  | (s, out), Op.alloc =>
    match Allocate s with
    | Except.error _ => none
    | Except.ok (a, s') => some (s', a ::ₘ out)
  | (s, out), Op.free a =>
    if a ∈ out then some (Free s a, out.erase a) else none

/-- Run a list of allocator operations from a given state. -/
def run : List Op → AllocState × Multiset Nat → Option (AllocState × Multiset Nat)
  | [], p => some p
  | op :: ops, p =>
    match step p op with
    | none => none
    | some q => run ops q

/-! ## Helper lemmas -/

theorem length_value_buffers (capacity dsize_key : Int) (dsize_values : List Int)
    (device : Device) :
    (HashmapBuffer.construct capacity dsize_key dsize_values device).value_buffers.length
      = dsize_values.length := by
  simp [HashmapBuffer.construct]

/-! ## Claims -/

/-- C4: for every buffer configured with `n` value components (including
`n = 0`) and every index `i`, `GetValueBuffer i` fails with `OutOfRange`
naming the requested index `i` and the valid count `n` exactly when `i ≥ n`
(a pure observation, with no state mutation); when `i < n` it returns the
`i`-th value-component buffer (of length `capacity` and byte size
`dsize_values[i]`). -/
theorem getValueBuffer_spec (capacity dsize_key : Int) (dsize_values : List Int)
    (device : Device) (i : Nat) :
    ((HashmapBuffer.construct capacity dsize_key dsize_values device).GetValueBuffer i
        = Except.error (HashmapError.OutOfRange i dsize_values.length)
      ↔ dsize_values.length ≤ i) ∧
    (i < dsize_values.length →
      ∃ t, (HashmapBuffer.construct capacity dsize_key dsize_values device).GetValueBuffer i
          = Except.ok t ∧ t.length = capacity ∧ t.dtype.byteSize = dsize_values.getD i 0) := by
  have hlen := length_value_buffers capacity dsize_key dsize_values device
  constructor
  · by_cases h : dsize_values.length ≤ i
    · simp [HashmapBuffer.GetValueBuffer, hlen, h]
    · simp [HashmapBuffer.GetValueBuffer, hlen, h]
  · intro h
    have h' : ¬ (HashmapBuffer.construct capacity dsize_key dsize_values
        device).value_buffers.length ≤ i := by omega
    refine ⟨(HashmapBuffer.construct capacity dsize_key dsize_values
        device).value_buffers.get ⟨i, Nat.lt_of_not_le h'⟩, ?_, ?_, ?_⟩
    · unfold HashmapBuffer.GetValueBuffer
      simp [h']
    · simp [HashmapBuffer.construct]
    · simp [HashmapBuffer.construct, objectDtype, List.getElem?_eq_getElem h]

/-- Witness for C4 at a concrete input: two components, index 5 is rejected
naming 5 and 2, index 1 yields the second component. -/
theorem getValueBuffer_spec_witness :
    ((HashmapBuffer.construct 2 8 [4, 12] ⟨DeviceType.CPU⟩).GetValueBuffer 5
        = Except.error (HashmapError.OutOfRange 5 2)
      ↔ (2:Nat) ≤ 5) ∧
    ((1:Nat) < 2 →
      ∃ t, (HashmapBuffer.construct 2 8 [4, 12] ⟨DeviceType.CPU⟩).GetValueBuffer 1
          = Except.ok t ∧ t.length = 2 ∧ t.dtype.byteSize = [(4:Int), 12].getD 1 0) :=
  getValueBuffer_spec 2 8 [4, 12] ⟨DeviceType.CPU⟩ 5 |>.1 |> fun h =>
    ⟨h, (getValueBuffer_spec 2 8 [4, 12] ⟨DeviceType.CPU⟩ 1).2⟩

/-- C9: the accessors return exactly the construction arguments — capacity,
key byte size, the value byte sizes in order, and the device — and the heap,
key and every value-component tensor have element count `capacity`. The
metadata is immutable: every facade accessor is a pure observation, and the
allocator operations touch only heap contents and the counter (`Free`
preserves the heap array length, `Allocate` leaves the array untouched). -/
theorem construct_accessor_spec (capacity dsize_key : Int) (dsize_values : List Int)
    (device : Device) :
    (HashmapBuffer.construct capacity dsize_key dsize_values device).GetCapacity = capacity ∧
    (HashmapBuffer.construct capacity dsize_key dsize_values device).GetKeyDsize = dsize_key ∧
    (HashmapBuffer.construct capacity dsize_key dsize_values device).GetValueDsizes
      = dsize_values ∧
    (HashmapBuffer.construct capacity dsize_key dsize_values device).GetDevice = device ∧
    (HashmapBuffer.construct capacity dsize_key dsize_values device).heap.length = capacity ∧
    (HashmapBuffer.construct capacity dsize_key dsize_values device).key_buffer.length
      = capacity ∧
    (∀ t ∈ (HashmapBuffer.construct capacity dsize_key dsize_values device).value_buffers,
      t.length = capacity) ∧
    (∀ (s : AllocState) (a : Nat), (Free s a).heap.length = s.heap.length) ∧
    (∀ (s : AllocState) (a : Nat) (s' : AllocState),
      Allocate s = Except.ok (a, s') → s'.heap = s.heap) := by
  refine ⟨rfl, rfl, ?_, rfl, rfl, rfl, ?_, ?_, ?_⟩
  · simp [HashmapBuffer.construct, HashmapBuffer.GetValueDsizes, objectDtype,
      List.map_map, Function.comp_def]
  · intro t ht
    simp only [HashmapBuffer.construct, List.mem_map] at ht
    obtain ⟨p, _, rfl⟩ := ht
    rfl
  · intro s a
    simp [Free]
  · intro s a s' h
    unfold Allocate at h
    by_cases h0 : s.heap_top = 0
    · simp [h0] at h
    · simp only [h0, if_false, Except.ok.injEq, Prod.mk.injEq] at h
      rw [← h.2]

/-- Witness for C9's quantified conjuncts at a concrete input. -/
theorem construct_accessor_spec_witness :
    (HashmapBuffer.construct 3 8 [4] ⟨DeviceType.CPU⟩).GetCapacity = 3 ∧
    (HashmapBuffer.construct 3 8 [4] ⟨DeviceType.CPU⟩).GetKeyDsize = 8 ∧
    (HashmapBuffer.construct 3 8 [4] ⟨DeviceType.CPU⟩).GetValueDsizes = [4] ∧
    (HashmapBuffer.construct 3 8 [4] ⟨DeviceType.CPU⟩).GetDevice = ⟨DeviceType.CPU⟩ ∧
    (HashmapBuffer.construct 3 8 [4] ⟨DeviceType.CPU⟩).heap.length = 3 ∧
    (HashmapBuffer.construct 3 8 [4] ⟨DeviceType.CPU⟩).key_buffer.length = 3 ∧
    (∀ t ∈ (HashmapBuffer.construct 3 8 [4] ⟨DeviceType.CPU⟩).value_buffers,
      t.length = 3) ∧
    (∀ (s : AllocState) (a : Nat), (Free s a).heap.length = s.heap.length) ∧
    (∀ (s : AllocState) (a : Nat) (s' : AllocState),
      Allocate s = Except.ok (a, s') → s'.heap = s.heap) :=
  construct_accessor_spec 3 8 [4] ⟨DeviceType.CPU⟩

/-- C8: `GetHeapTopIndex` is a pure observation (a `const` method, it returns
the counter value and modifies nothing): on a non-CUDA buffer it returns the
host counter (the `std::atomic<int>` load), on a CUDA buffer it returns the
value of the single-element device-resident scalar (the `Item<int>()`
device-to-host read); and in each case the representation not selected at
construction is never consulted — replacing it leaves the result unchanged. -/
theorem getHeapTopIndex_spec (b : HashmapBuffer) :
    (b.heap.device.type = DeviceType.CUDA →
      b.GetHeapTopIndex = b.heap_top.cuda.map CudaScalar.value ∧
      ∀ c : Int,
        HashmapBuffer.GetHeapTopIndex { b with heap_top := { b.heap_top with cpu := c } }
          = b.GetHeapTopIndex) ∧
    (b.heap.device.type ≠ DeviceType.CUDA →
      b.GetHeapTopIndex = some b.heap_top.cpu ∧
      ∀ o : Option CudaScalar,
        HashmapBuffer.GetHeapTopIndex { b with heap_top := { b.heap_top with cuda := o } }
          = b.GetHeapTopIndex) := by
  constructor
  · intro h
    constructor
    · simp [HashmapBuffer.GetHeapTopIndex, h]
    · intro c
      simp [HashmapBuffer.GetHeapTopIndex, h]
  · intro h
    constructor
    · simp [HashmapBuffer.GetHeapTopIndex, h]
    · intro o
      simp [HashmapBuffer.GetHeapTopIndex, h]

/-- Witness for C8: a CPU-constructed buffer with counter 7 reads 7 through
the host representation, ignoring the CUDA slot. -/
theorem getHeapTopIndex_spec_witness :
    (DeviceType.CPU = DeviceType.CUDA →
      HashmapBuffer.GetHeapTopIndex
          { HashmapBuffer.construct 4 8 [] ⟨DeviceType.CPU⟩ with
            heap_top := ⟨none, 7⟩ }
        = (none : Option CudaScalar).map CudaScalar.value ∧
      ∀ c : Int,
        HashmapBuffer.GetHeapTopIndex
            { HashmapBuffer.construct 4 8 [] ⟨DeviceType.CPU⟩ with
              heap_top := ⟨none, c⟩ }
          = HashmapBuffer.GetHeapTopIndex
              { HashmapBuffer.construct 4 8 [] ⟨DeviceType.CPU⟩ with
                heap_top := ⟨none, 7⟩ }) ∧
    (DeviceType.CPU ≠ DeviceType.CUDA →
      HashmapBuffer.GetHeapTopIndex
          { HashmapBuffer.construct 4 8 [] ⟨DeviceType.CPU⟩ with
            heap_top := ⟨none, 7⟩ }
        = some 7 ∧
      ∀ o : Option CudaScalar,
        HashmapBuffer.GetHeapTopIndex
            { HashmapBuffer.construct 4 8 [] ⟨DeviceType.CPU⟩ with
              heap_top := ⟨o, 7⟩ }
          = HashmapBuffer.GetHeapTopIndex
              { HashmapBuffer.construct 4 8 [] ⟨DeviceType.CPU⟩ with
                heap_top := ⟨none, 7⟩ }) :=
  getHeapTopIndex_spec
    { HashmapBuffer.construct 4 8 [] ⟨DeviceType.CPU⟩ with heap_top := ⟨none, 7⟩ }

/-- C10: capacity is accepted as a signed 64-bit value and passed through with
no range check (`GetCapacity` returns it unchanged for every `Int`); slot
addresses are stored in the `UInt32` heap tensor, i.e. in 4-byte cells kept
modulo `2^32`, faithful exactly below `2^32`; the CUDA heap-top counter is a
single-element `Int32` scalar (the host counter an `atomic<int>`, same
32-bit width), whose stored patterns read back as the original non-negative
count exactly up to `2^31 - 1`. -/
theorem representation_spec (capacity dsize_key : Int) (dsize_values : List Int)
    (device : Device) :
    (HashmapBuffer.construct capacity dsize_key dsize_values device).heap.dtype
      = UInt32Dtype ∧
    (device.type = DeviceType.CUDA →
      (HashmapBuffer.construct capacity dsize_key dsize_values device).heap_top.cuda
        = some ⟨Int32Dtype, device, 0⟩) ∧
    (HashmapBuffer.construct capacity dsize_key dsize_values device).GetCapacity
      = capacity ∧
    (∀ n : Nat,
      (HashmapBuffer.construct capacity dsize_key dsize_values device).heap.dtype.storeNat n
        = n % 2 ^ 32) ∧
    (∀ n : Nat,
      ((HashmapBuffer.construct capacity dsize_key dsize_values device).heap.dtype.storeNat n
        = n) ↔ n < 2 ^ 32) ∧
    (∀ n : Nat, (Int32Dtype.loadInt n = n) ↔ n ≤ 2 ^ 31 - 1) := by
  refine ⟨rfl, ?_, rfl, ?_, ?_, ?_⟩
  · intro h
    simp [HashmapBuffer.construct, h]
  · intro n
    rfl
  · intro n
    show n % 2 ^ 32 = n ↔ n < 2 ^ 32
    omega
  · intro n
    show (if n % 2 ^ 32 < 2 ^ 31 then ((n % 2 ^ 32 : Nat) : Int)
        else ((n % 2 ^ 32 : Nat) : Int) - 2 ^ 32) = n ↔ n ≤ 2 ^ 31 - 1
    split <;> omega

/-- Witness for C10's conditional and quantified conjuncts at concrete
inputs: a CUDA construction carries the Int32 scalar, `2^32 + 5` truncates
modulo `2^32`, `2^31 - 1` survives the signed 32-bit round trip. -/
theorem representation_spec_witness :
    (HashmapBuffer.construct 4 8 [] ⟨DeviceType.CUDA⟩).heap.dtype = UInt32Dtype ∧
    (DeviceType.CUDA = DeviceType.CUDA →
      (HashmapBuffer.construct 4 8 [] ⟨DeviceType.CUDA⟩).heap_top.cuda
        = some ⟨Int32Dtype, ⟨DeviceType.CUDA⟩, 0⟩) ∧
    (HashmapBuffer.construct 4 8 [] ⟨DeviceType.CUDA⟩).GetCapacity = 4 ∧
    (∀ n : Nat,
      (HashmapBuffer.construct 4 8 [] ⟨DeviceType.CUDA⟩).heap.dtype.storeNat n
        = n % 2 ^ 32) ∧
    (∀ n : Nat,
      ((HashmapBuffer.construct 4 8 [] ⟨DeviceType.CUDA⟩).heap.dtype.storeNat n = n)
        ↔ n < 2 ^ 32) ∧
    (∀ n : Nat, (Int32Dtype.loadInt n = n) ↔ n ≤ 2 ^ 31 - 1) :=
  representation_spec 4 8 [] ⟨DeviceType.CUDA⟩

theorem take_concat_getD (l : List Nat) (t : Nat) (h0 : t ≠ 0) (hle : t ≤ l.length) :
    l.take t = l.take (t - 1) ++ [l.getD (t - 1) 0] := by
  have h1 : t - 1 < l.length := by omega
  have h2 : t - 1 + 1 = t := by omega
  conv_lhs => rw [← h2]
  rw [List.take_succ, List.getElem?_eq_getElem h1, List.getD_eq_getElem _ _ h1]
  rfl

/-- C1: `Allocate` fails with `PoolExhausted` exactly when `heap_top = 0`
(failure returns no new state, so the state is unchanged); otherwise it
succeeds, the new state is the old one with `heap_top` decremented by 1, the
returned address is `heap[heap_top]` at the post-decrement value, and — for a
valid state (counter within bounds, free region duplicate-free) — that
address was free before and is removed from the free set. -/
theorem allocate_spec (s : AllocState) (hle : s.heap_top ≤ s.heap.length)
    (hnd : s.freeList.Nodup) :
    (Allocate s = Except.error AllocError.PoolExhausted ↔ s.heap_top = 0) ∧
    (∀ (a : Nat) (s' : AllocState), Allocate s = Except.ok (a, s') →
      s' = { s with heap_top := s.heap_top - 1 } ∧
      a = s.heap.getD (s.heap_top - 1) 0 ∧
      a ∈ s.freeList ∧ a ∉ s'.freeList) := by
  by_cases h0 : s.heap_top = 0
  · constructor
    · simp [Allocate, h0]
    · intro a s' h
      simp [Allocate, h0] at h
  · constructor
    · simp [Allocate, h0]
    · intro a s' h
      simp only [Allocate, h0, if_false, Except.ok.injEq, Prod.mk.injEq] at h
      obtain ⟨ha, hs'⟩ := h
      subst hs'
      have hsplit := take_concat_getD s.heap s.heap_top h0 hle
      refine ⟨rfl, ha.symm, ?_, ?_⟩
      · rw [AllocState.freeList, hsplit, ha]
        exact List.mem_append_right _ (List.mem_singleton.mpr rfl)
      · rw [AllocState.freeList, hsplit] at hnd
        rw [List.nodup_append] at hnd
        intro hmem
        exact hnd.2.2 hmem (by rw [ha]; exact List.mem_singleton.mpr rfl)

/-- Witness for C1 at a concrete valid state. -/
theorem allocate_spec_witness :
    ((⟨[0, 1, 2], 3⟩ : AllocState).heap_top ≤ (⟨[0, 1, 2], 3⟩ : AllocState).heap.length) ∧
    ((Allocate ⟨[0, 1, 2], 3⟩ = Except.error AllocError.PoolExhausted
        ↔ (⟨[0, 1, 2], 3⟩ : AllocState).heap_top = 0) ∧
      (∀ (a : Nat) (s' : AllocState), Allocate ⟨[0, 1, 2], 3⟩ = Except.ok (a, s') →
        s' = { (⟨[0, 1, 2], 3⟩ : AllocState) with
                heap_top := (⟨[0, 1, 2], 3⟩ : AllocState).heap_top - 1 } ∧
        a = [0, 1, 2].getD ((⟨[0, 1, 2], 3⟩ : AllocState).heap_top - 1) 0 ∧
        a ∈ (⟨[0, 1, 2], 3⟩ : AllocState).freeList ∧
        a ∉ s'.freeList)) :=
  ⟨by decide, allocate_spec ⟨[0, 1, 2], 3⟩ (by decide) (by decide)⟩

/-- C2: `Free a` writes `a` into `heap[heap_top]` and increments `heap_top`
by 1, leaving the heap length and every other heap entry unchanged. The
bound `heap_top < capacity` is implied by the caller-enforced precondition
that `a` is currently allocated (some slot is outstanding). -/
theorem free_spec (s : AllocState) (a : Nat) (h : s.heap_top < s.heap.length) :
    (Free s a).heap.getD s.heap_top 0 = a ∧
    (Free s a).heap_top = s.heap_top + 1 ∧
    (Free s a).heap.length = s.heap.length ∧
    ∀ j, j ≠ s.heap_top → (Free s a).heap.getD j 0 = s.heap.getD j 0 := by
  have hlen : (s.heap.set s.heap_top a).length = s.heap.length := List.length_set ..
  refine ⟨?_, rfl, hlen, ?_⟩
  · show (s.heap.set s.heap_top a).getD s.heap_top 0 = a
    rw [List.getD_eq_getElem _ _ (by rw [List.length_set]; exact h)]
    exact List.getElem_set_self _
  · intro j hj
    show (s.heap.set s.heap_top a).getD j 0 = s.heap.getD j 0
    by_cases hjl : j < s.heap.length
    · rw [List.getD_eq_getElem _ _ (by rw [List.length_set]; exact hjl),
        List.getD_eq_getElem _ _ hjl]
      exact List.getElem_set_ne (fun hc => hj hc.symm) _
    · rw [List.getD_eq_default _ _ (by rw [List.length_set]; omega),
        List.getD_eq_default _ _ (by omega)]

/-- Witness for C2 at a concrete state and address. -/
theorem free_spec_witness :
    ((⟨[0, 1, 2, 3], 2⟩ : AllocState).heap_top < (⟨[0, 1, 2, 3], 2⟩ : AllocState).heap.length) ∧
    ((Free ⟨[0, 1, 2, 3], 2⟩ 9).heap.getD 2 0 = 9 ∧
      (Free ⟨[0, 1, 2, 3], 2⟩ 9).heap_top = 2 + 1 ∧
      (Free ⟨[0, 1, 2, 3], 2⟩ 9).heap.length = (⟨[0, 1, 2, 3], 2⟩ : AllocState).heap.length ∧
      ∀ j, j ≠ (⟨[0, 1, 2, 3], 2⟩ : AllocState).heap_top →
        (Free ⟨[0, 1, 2, 3], 2⟩ 9).heap.getD j 0
          = (⟨[0, 1, 2, 3], 2⟩ : AllocState).heap.getD j 0) :=
  ⟨by decide, free_spec ⟨[0, 1, 2, 3], 2⟩ 9 (by decide)⟩

/-- C3: in the initial free-list state for capacity `c`, the counter is `c`,
the heap array has length `c`, and `heap[i] = i` for every `i < c` (all slots
free). The initialization is modelled from the spec, as the backend reset
code is not in the given source. -/
theorem init_spec (c : Nat) :
    (AllocState.init c).heap_top = c ∧
    (AllocState.init c).heap.length = c ∧
    ∀ i, i < c → (AllocState.init c).heap.getD i 0 = i := by
  refine ⟨rfl, by simp [AllocState.init], ?_⟩
  intro i hi
  have hlen : i < (AllocState.init c).heap.length := by simpa [AllocState.init] using hi
  rw [List.getD_eq_getElem _ _ hlen]
  simp [AllocState.init]

/-- Witness for C3's bounded conjunct at capacity 3, index 1. -/
theorem init_spec_witness :
    (AllocState.init 3).heap_top = 3 ∧ (1 : Nat) < 3 ∧
    (AllocState.init 3).heap.getD 1 0 = 1 :=
  ⟨(init_spec 3).1, by decide, (init_spec 3).2.2 1 (by decide)⟩

/-- C5: address reuse is LIFO. In general, after `Free s a` (legal, i.e. some
slot is outstanding so `heap_top < capacity`), the next `Allocate` returns
exactly `a`; and concretely, from the initial state of capacity 4 with free
set {0,1,2,3}, the sequence Allocate, Allocate, Free 3, Allocate returns
3, 2, and then 3 again. -/
theorem lifo_spec (s : AllocState) (a : Nat) (h : s.heap_top < s.heap.length) :
    Allocate (Free s a) = Except.ok (a, { s with heap := s.heap.set s.heap_top a }) ∧
    Allocate (AllocState.init 4) = Except.ok (3, ⟨[0, 1, 2, 3], 3⟩) ∧
    Allocate ⟨[0, 1, 2, 3], 3⟩ = Except.ok (2, ⟨[0, 1, 2, 3], 2⟩) ∧
    Free ⟨[0, 1, 2, 3], 2⟩ 3 = ⟨[0, 1, 3, 3], 3⟩ ∧
    Allocate ⟨[0, 1, 3, 3], 3⟩ = Except.ok (3, ⟨[0, 1, 3, 3], 2⟩) := by
  refine ⟨?_, rfl, rfl, rfl, rfl⟩
  have hne : ¬ (s.heap_top + 1 = 0) := Nat.succ_ne_zero _
  have hget : (s.heap.set s.heap_top a).getD s.heap_top 0 = a := by
    rw [List.getD_eq_getElem _ _ (by rw [List.length_set]; exact h)]
    exact List.getElem_set_self _
  simp only [Allocate, Free, hne, if_false, Nat.add_sub_cancel, hget]

/-- Witness for C5 at a concrete state: freeing 7 into state
`⟨[0,1,2,3], 2⟩` and allocating next returns 7. -/
theorem lifo_spec_witness :
    ((⟨[0, 1, 2, 3], 2⟩ : AllocState).heap_top < (⟨[0, 1, 2, 3], 2⟩ : AllocState).heap.length) ∧
    (Allocate (Free ⟨[0, 1, 2, 3], 2⟩ 7)
        = Except.ok (7, { (⟨[0, 1, 2, 3], 2⟩ : AllocState) with
            heap := List.set [0, 1, 2, 3] 2 7 }) ∧
      Allocate (AllocState.init 4) = Except.ok (3, ⟨[0, 1, 2, 3], 3⟩) ∧
      Allocate ⟨[0, 1, 2, 3], 3⟩ = Except.ok (2, ⟨[0, 1, 2, 3], 2⟩) ∧
      Free ⟨[0, 1, 2, 3], 2⟩ 3 = ⟨[0, 1, 3, 3], 3⟩ ∧
      Allocate ⟨[0, 1, 3, 3], 3⟩ = Except.ok (3, ⟨[0, 1, 3, 3], 2⟩)) :=
  ⟨by decide, lifo_spec ⟨[0, 1, 2, 3], 2⟩ 7 (by decide)⟩

theorem allocateN_range (c : Nat) : ∀ (n t : Nat), n ≤ t → t ≤ c →
    allocateN n ⟨List.range c, t⟩
      = Except.ok ((List.range' (t - n) n).reverse, ⟨List.range c, t - n⟩)
  | 0, t, _, _ => by simp [allocateN]
  | n + 1, t, hn, hc => by
    have ht0 : ¬ (t = 0) := by omega
    have ht1 : t - 1 < (List.range c).length := by
      rw [List.length_range]; omega
    have hgd : (List.range c).getD (t - 1) 0 = t - 1 := by
      rw [List.getD_eq_getElem _ _ ht1]; simp
    have hIH := allocateN_range c n (t - 1) (by omega) (by omega)
    have hs : t - (n + 1) = t - 1 - n := by omega
    have hr : List.range' (t - 1 - n) (n + 1) = List.range' (t - 1 - n) n ++ [t - 1] := by
      rw [List.range'_concat]
      congr 2
      omega
    simp only [allocateN, Allocate, ht0, if_false, hgd, hIH, hs, hr,
      List.reverse_concat]

/-- C6: from a freshly initialized buffer of capacity `c` (including
`c = 0`), `c` Allocate calls with no intervening Free all succeed, returning
the addresses `c-1, ..., 1, 0` — `c` pairwise-distinct addresses, each below
`c` — and the `(c+1)`-th call, issued on the resulting state, fails with
`PoolExhausted`; for `c = 0` that failing call is the very first one. -/
theorem exhaustion_spec (c : Nat) :
    allocateN c (AllocState.init c)
      = Except.ok ((List.range c).reverse, ⟨List.range c, 0⟩) ∧
    ((List.range c).reverse).length = c ∧
    ((List.range c).reverse).Nodup ∧
    (∀ a ∈ (List.range c).reverse, a < c) ∧
    Allocate ⟨List.range c, 0⟩ = Except.error AllocError.PoolExhausted := by
  refine ⟨?_, by simp, ?_, ?_, ?_⟩
  · have h := allocateN_range c c c le_rfl le_rfl
    rw [Nat.sub_self, ← List.range_eq_range'] at h
    exact h
  · exact List.nodup_reverse.mpr (List.nodup_range c)
  · intro a ha
    rw [List.mem_reverse] at ha
    exact List.mem_range.mp ha
  · rfl

/-- Witness for C6 at capacities 0 (first Allocate already fails) and 2. -/
theorem exhaustion_spec_witness :
    (allocateN 0 (AllocState.init 0)
        = Except.ok ((List.range 0).reverse, ⟨List.range 0, 0⟩) ∧
      ((List.range 0).reverse).length = 0 ∧
      ((List.range 0).reverse).Nodup ∧
      (∀ a ∈ (List.range 0).reverse, a < 0) ∧
      Allocate ⟨List.range 0, 0⟩ = Except.error AllocError.PoolExhausted) ∧
    (allocateN 2 (AllocState.init 2)
        = Except.ok ((List.range 2).reverse, ⟨List.range 2, 0⟩) ∧
      ((List.range 2).reverse).length = 2 ∧
      ((List.range 2).reverse).Nodup ∧
      (∀ a ∈ (List.range 2).reverse, a < 2) ∧
      Allocate ⟨List.range 2, 0⟩ = Except.error AllocError.PoolExhausted) :=
  ⟨exhaustion_spec 0, exhaustion_spec 2⟩

theorem take_set_self : ∀ (l : List Nat) (n : Nat) (a : Nat),
    (l.set n a).take n = l.take n
  | [], _, _ => by simp
  | _ :: _, 0, _ => by simp
  | x :: xs, n + 1, a => by
    simp [take_set_self xs n a]

theorem step_inv (p q : AllocState × Multiset Nat) (op : Op)
    (hv : p.1.heap_top + Multiset.card p.2 ≤ p.1.heap.length)
    (h : step p op = some q) :
    q.1.heap.length = p.1.heap.length ∧
    q.1.heap_top + Multiset.card q.2 = p.1.heap_top + Multiset.card p.2 ∧
    (q.1.freeList : Multiset Nat) + q.2 = (p.1.freeList : Multiset Nat) + p.2 := by
  obtain ⟨s, out⟩ := p
  cases op with
  | alloc =>
    by_cases h0 : s.heap_top = 0
    · simp [step, Allocate, h0] at h
    · simp only [step, Allocate, h0, if_false, Option.some.injEq] at h
      subst h
      have hv' : s.heap_top + Multiset.card out ≤ s.heap.length := hv
      have hle : s.heap_top ≤ s.heap.length := by omega
      refine ⟨rfl, ?_, ?_⟩
      · simp only [Multiset.card_cons]
        omega
      · show (↑(List.take (s.heap_top - 1) s.heap) : Multiset Nat)
            + (s.heap.getD (s.heap_top - 1) 0 ::ₘ out)
          = (↑(List.take s.heap_top s.heap) : Multiset Nat) + out
        rw [take_concat_getD s.heap s.heap_top h0 hle, ← Multiset.coe_add,
          Multiset.coe_singleton, add_assoc, Multiset.singleton_add]
  | free a =>
    by_cases hm : a ∈ out
    · simp only [step, hm, if_true, Option.some.injEq] at h
      subst h
      have hv' : s.heap_top + Multiset.card out ≤ s.heap.length := hv
      have hcard : 0 < Multiset.card out :=
        Multiset.card_pos_iff_exists_mem.mpr ⟨a, hm⟩
      have hlt : s.heap_top < s.heap.length := by omega
      have hlen : (s.heap.set s.heap_top a).length = s.heap.length :=
        List.length_set ..
      refine ⟨hlen, ?_, ?_⟩
      · simp only [Free, Multiset.card_erase_of_mem hm, Nat.pred_eq_sub_one]
        omega
      · show (↑(List.take (s.heap_top + 1) (s.heap.set s.heap_top a)) : Multiset Nat)
            + out.erase a
          = (↑(List.take s.heap_top s.heap) : Multiset Nat) + out
        have hgd : (s.heap.set s.heap_top a).getD s.heap_top 0 = a := by
          rw [List.getD_eq_getElem _ _ (by omega)]
          exact List.getElem_set_self _
        rw [take_concat_getD (s.heap.set s.heap_top a) (s.heap_top + 1)
            (Nat.succ_ne_zero _) (by omega), Nat.add_sub_cancel, hgd,
          take_set_self, ← Multiset.coe_add, Multiset.coe_singleton, add_assoc,
          Multiset.singleton_add, Multiset.cons_erase hm]
    · simp [step, hm] at h

theorem run_inv : ∀ (ops : List Op) (p q : AllocState × Multiset Nat),
    p.1.heap_top + Multiset.card p.2 ≤ p.1.heap.length →
    run ops p = some q →
    q.1.heap.length = p.1.heap.length ∧
    q.1.heap_top + Multiset.card q.2 = p.1.heap_top + Multiset.card p.2 ∧
    (q.1.freeList : Multiset Nat) + q.2 = (p.1.freeList : Multiset Nat) + p.2
  | [], p, q, _, h => by
    simp only [run, Option.some.injEq] at h
    subst h
    exact ⟨rfl, rfl, rfl⟩
  | op :: ops, p, q, hv, h => by
    simp only [run] at h
    cases hstep : step p op with
    | none =>
      rw [hstep] at h
      exact absurd h (by simp)
    | some r =>
      rw [hstep] at h
      obtain ⟨hl1, hc1, hm1⟩ := step_inv p r op hv hstep
      have hv2 : r.1.heap_top + Multiset.card r.2 ≤ r.1.heap.length := by omega
      obtain ⟨hl2, hc2, hm2⟩ := run_inv ops r q hv2 h
      exact ⟨hl2.trans hl1, hc2.trans hc1, hm2.trans hm1⟩

/-- C7: a balanced sequence of Allocate/Free operations is a run in which
every Allocate succeeds (no over-allocation), every Free targets a currently
outstanding address (no double-free), and the outstanding multiset is empty
again at the end (each allocated address freed exactly once). Any such run,
from any valid allocator state, returns `heap_top` to its original value and
leaves the free region equal to the original one as a multiset — hence in
particular as a set, ignoring order. -/
theorem balanced_spec (ops : List Op) (s₀ s₁ : AllocState)
    (hv : s₀.heap_top ≤ s₀.heap.length)
    (h : run ops (s₀, 0) = some (s₁, 0)) :
    s₁.heap_top = s₀.heap_top ∧
    (s₁.freeList : Multiset Nat) = (s₀.freeList : Multiset Nat) ∧
    ∀ a : Nat, a ∈ s₁.freeList ↔ a ∈ s₀.freeList := by
  obtain ⟨_, hsum, hms⟩ := run_inv ops (s₀, 0) (s₁, 0) (by simpa using hv) h
  simp only [Multiset.card_zero, add_zero] at hsum hms
  refine ⟨hsum, hms, fun a => ?_⟩
  rw [← Multiset.mem_coe, ← Multiset.mem_coe, hms]

/-- Witness for C7: the balanced run Allocate, Allocate, Free 3, Free 2 on a
fresh capacity-4 state restores the counter to 4 and the free set {0,1,2,3}. -/
theorem balanced_spec_witness :
    ((AllocState.init 4).heap_top ≤ (AllocState.init 4).heap.length) ∧
    (run [Op.alloc, Op.alloc, Op.free 3, Op.free 2] (AllocState.init 4, 0)
        = some (⟨[0, 1, 3, 2], 4⟩, 0)) ∧
    ((⟨[0, 1, 3, 2], 4⟩ : AllocState).heap_top = (AllocState.init 4).heap_top ∧
      (((⟨[0, 1, 3, 2], 4⟩ : AllocState).freeList : Multiset Nat)
        = ((AllocState.init 4).freeList : Multiset Nat)) ∧
      ∀ a : Nat, a ∈ (⟨[0, 1, 3, 2], 4⟩ : AllocState).freeList
        ↔ a ∈ (AllocState.init 4).freeList) :=
  ⟨by decide, by decide,
    balanced_spec [Op.alloc, Op.alloc, Op.free 3, Op.free 2]
      (AllocState.init 4) ⟨[0, 1, 3, 2], 4⟩ (by decide) (by decide)⟩

end Open3D
